import Mathlib

/-!
Shallow embedding of the database core of the GST management system.

The core of the repository is a SQL schema with triggers and stored
procedures.  We embed the four tables the consistency rules touch as lists
of rows, and each client-visible mutation (INSERT / UPDATE / DELETE on
purchases and invoice_items, plus the two stored safe-delete procedures)
as a function DB -> Except DBError DB.  An `.error` result models a raised
exception: in Postgres the whole transaction, including every triggered
write, is rolled back, so no state is returned.

Numeric columns (`numeric`) are embedded as Rat, integer columns as Int,
dates as Int (only their order matters), uuid keys as Nat.
-/

/-- Row of `public.products` (columns the core touches).
The table carries CHECK (stock_quantity >= 0), CHECK (unit_price >= 0),
CHECK (tax_rate >= 0 AND tax_rate <= 1). -/
structure Product where
  id : Nat
  name : String
  stock_quantity : Int
  unit_price : Rat
  tax_rate : Rat
deriving DecidableEq, Repr

/-- Row of `public.purchases`; CHECK (quantity > 0), product_id references products. -/
structure Purchase where
  id : Nat
  product_id : Nat
  purchase_date : Int
  reference_invoice : String
  quantity : Int
deriving DecidableEq, Repr

/-- Row of `public.invoices`; total_amount is maintained by the
`recalculate_invoice_total` trigger. -/
structure Invoice where
  id : Nat
  invoice_number : String
  invoice_date : Int
  total_amount : Rat
deriving DecidableEq, Repr

/-- Row of `public.invoice_items`; CHECK (quantity > 0), CHECK (unit_price >= 0),
CHECK (tax_rate between 0 and 1); invoice_id references invoices ON DELETE CASCADE. -/
structure InvoiceItem where
  id : Nat
  invoice_id : Nat
  product_id : Nat
  quantity : Int
  unit_price : Rat
  tax_rate : Rat
deriving DecidableEq, Repr

/-- The database state: the four tables of the core. -/
structure DB where
  products : List Product
  purchases : List Purchase
  invoices : List Invoice
  invoice_items : List InvoiceItem
deriving DecidableEq, Repr

/-- Error taxonomy of the core (spec section 7): `notFound` for a missing row,
`wouldViolateInvariant` for the guarded purchase deletion, and
`constraintViolation` for any CHECK / foreign-key / primary-key failure. -/
inductive DBError where
  | notFound
  | wouldViolateInvariant
  | constraintViolation
deriving DecidableEq, Repr

instance {ε α : Type} [DecidableEq ε] [DecidableEq α] : DecidableEq (Except ε α) :=
  fun x y =>
    match x, y with
    | .ok a, .ok b => decidable_of_iff (a = b) (by simp)
    | .error a, .error b => decidable_of_iff (a = b) (by simp)
    | .ok _, .error _ => isFalse (by simp)
    | .error _, .ok _ => isFalse (by simp)

/-- Effect of UPDATE ... SET stock_quantity = stock_quantity + delta WHERE id = pid
on one row. -/
def stockAdjustRow (pid : Nat) (delta : Int) (p : Product) : Product :=
  if p.id = pid then { p with stock_quantity := p.stock_quantity + delta } else p

/-- UPDATE public.products SET stock_quantity = stock_quantity + delta WHERE id = pid.
Every updated row must satisfy products_stock_quantity_check
CHECK (stock_quantity >= 0); a violating row aborts the statement. -/
def updateProductStock (products : List Product) (pid : Nat) (delta : Int) :
    Except DBError (List Product) :=
  let updated := products.map (stockAdjustRow pid delta)
  if updated.all fun p => p.id != pid || decide (0 ≤ p.stock_quantity) then
    .ok updated
  else
    .error .constraintViolation

/-- Column CHECK constraints of the purchases table: purchases_quantity_check. -/
def purchaseRowOk (row : Purchase) : Bool :=
  decide (0 < row.quantity)

/-- Column CHECK constraints of the invoice_items table. -/
def itemRowOk (row : InvoiceItem) : Bool :=
  decide (0 < row.quantity) && decide (0 ≤ row.unit_price) &&
    decide (0 ≤ row.tax_rate) && decide (row.tax_rate ≤ 1)

/-- Foreign-key lookup into products (purchases_product_id_fkey,
invoice_items_product_id_fkey). -/
def productExists (db : DB) (pid : Nat) : Bool :=
  (db.products.find? fun p => p.id == pid).isSome

/-- Foreign-key lookup into invoices (invoice_items_invoice_id_fkey). -/
def invoiceExists (db : DB) (iid : Nat) : Bool :=
  (db.invoices.find? fun i => i.id == iid).isSome

/-- SELECT COALESCE(SUM(quantity * unit_price * (1 + tax_rate)), 0)
FROM invoice_items WHERE invoice_id = inv_id. -/
def invoiceItemsTotal (items : List InvoiceItem) (inv_id : Nat) : Rat :=
  ((items.filter fun it => it.invoice_id == inv_id).map
    fun it => (it.quantity : Rat) * it.unit_price * (1 + it.tax_rate)).sum

/-- Body of `recalculate_invoice_total`: UPDATE invoices SET total_amount =
(full sum over the current items of inv_id) WHERE id = inv_id. -/
def recalcInvoiceTotal (invoices : List Invoice) (items : List InvoiceItem)
    (inv_id : Nat) : List Invoice :=
  invoices.map fun i =>
    if i.id = inv_id then { i with total_amount := invoiceItemsTotal items inv_id } else i

/-- INSERT INTO purchases: column CHECKs, primary-key uniqueness and the
product foreign key are enforced, then the `update_stock_on_purchase`
trigger (INSERT branch) adds NEW.quantity to the product's stock. -/
def insertPurchase (db : DB) (row : Purchase) : Except DBError DB :=
  if !purchaseRowOk row then .error .constraintViolation
  else if !(db.purchases.all fun r => r.id != row.id) then .error .constraintViolation
  else if !productExists db row.product_id then .error .constraintViolation
  else
    match updateProductStock db.products row.product_id row.quantity with
    | .error e => .error e
    | .ok ps => .ok { db with products := ps, purchases := db.purchases ++ [row] }

/-- UPDATE purchases SET product_id, purchase_date, reference_invoice, quantity
WHERE id = pid (id is the primary key, so at most one row is affected; zero
affected rows is a successful no-op).  The `update_stock_on_purchase` trigger
(UPDATE branch) then runs
UPDATE products SET stock_quantity = stock_quantity - OLD.quantity + NEW.quantity
WHERE id = NEW.product_id — note the source adjusts only NEW.product_id. -/
def updatePurchase (db : DB) (pid : Nat) (new_product_id : Nat) (new_date : Int)
    (new_ref : String) (new_qty : Int) : Except DBError DB :=
  match db.purchases.find? fun r => r.id == pid with
  | none => .ok db
  | some old =>
    let newRow : Purchase :=
      { id := pid, product_id := new_product_id, purchase_date := new_date,
        reference_invoice := new_ref, quantity := new_qty }
    if !purchaseRowOk newRow then .error .constraintViolation
    else if !productExists db new_product_id then .error .constraintViolation
    else
      match updateProductStock db.products new_product_id (new_qty - old.quantity) with
      | .error e => .error e
      | .ok ps =>
        .ok { db with products := ps,
                      purchases := db.purchases.map fun r => if r.id = pid then newRow else r }

/-- DELETE FROM purchases WHERE id = pid (primary key; zero affected rows is a
successful no-op).  The `update_stock_on_purchase` trigger (DELETE branch)
subtracts OLD.quantity from the product's stock. -/
def deletePurchase (db : DB) (pid : Nat) : Except DBError DB :=
  match db.purchases.find? fun r => r.id == pid with
  | none => .ok db
  | some old =>
    match updateProductStock db.products old.product_id (-old.quantity) with
    | .error e => .error e
    | .ok ps =>
      .ok { db with products := ps,
                    purchases := db.purchases.filter fun r => r.id != pid }

/-- INSERT INTO invoice_items: column CHECKs, primary-key uniqueness and both
foreign keys are enforced, then the two AFTER INSERT row triggers fire:
`recalculate_invoice_total` rewrites the full total of NEW.invoice_id, and
`update_stock_on_sale` (INSERT branch) deducts NEW.quantity from the product. -/
def insertInvoiceItem (db : DB) (row : InvoiceItem) : Except DBError DB :=
  if !itemRowOk row then .error .constraintViolation
  else if !(db.invoice_items.all fun r => r.id != row.id) then .error .constraintViolation
  else if !invoiceExists db row.invoice_id then .error .constraintViolation
  else if !productExists db row.product_id then .error .constraintViolation
  else
    let items := db.invoice_items ++ [row]
    let invoices := recalcInvoiceTotal db.invoices items row.invoice_id
    match updateProductStock db.products row.product_id (-row.quantity) with
    | .error e => .error e
    | .ok ps =>
      .ok { products := ps, purchases := db.purchases,
            invoices := invoices, invoice_items := items }

/-- UPDATE invoice_items SET invoice_id, product_id, quantity, unit_price, tax_rate
WHERE id = iid (primary key; zero affected rows is a successful no-op).
Then `recalculate_invoice_total` rewrites the full total of NEW.invoice_id and,
when NEW.invoice_id differs from OLD.invoice_id, also of OLD.invoice_id; and
`update_stock_on_sale` (UPDATE branch) either restores OLD.quantity to the old
product and deducts NEW.quantity from the new one (product changed), or adjusts
the single product by OLD.quantity - NEW.quantity. -/
def updateInvoiceItem (db : DB) (iid : Nat) (new_invoice_id : Nat)
    (new_product_id : Nat) (new_qty : Int) (new_price : Rat) (new_tax : Rat) :
    Except DBError DB :=
  match db.invoice_items.find? fun r => r.id == iid with
  | none => .ok db
  | some old =>
    let newRow : InvoiceItem :=
      { id := iid, invoice_id := new_invoice_id, product_id := new_product_id,
        quantity := new_qty, unit_price := new_price, tax_rate := new_tax }
    if !itemRowOk newRow then .error .constraintViolation
    else if !invoiceExists db new_invoice_id then .error .constraintViolation
    else if !productExists db new_product_id then .error .constraintViolation
    else
      let items := db.invoice_items.map fun r => if r.id = iid then newRow else r
      let invoices1 := recalcInvoiceTotal db.invoices items new_invoice_id
      let invoices2 :=
        if new_invoice_id ≠ old.invoice_id then
          recalcInvoiceTotal invoices1 items old.invoice_id
        else invoices1
      let stockRes :=
        if old.product_id ≠ new_product_id then
          match updateProductStock db.products old.product_id old.quantity with
          | .error e => .error e
          | .ok ps1 => updateProductStock ps1 new_product_id (-new_qty)
        else
          updateProductStock db.products new_product_id (old.quantity - new_qty)
      match stockRes with
      | .error e => .error e
      | .ok ps =>
        .ok { products := ps, purchases := db.purchases,
              invoices := invoices2, invoice_items := items }

/-- DELETE FROM invoice_items WHERE id = iid (primary key; zero affected rows is
a successful no-op).  Then `recalculate_invoice_total` rewrites the full total
of OLD.invoice_id and `update_stock_on_sale` (DELETE branch) returns
OLD.quantity to the product's stock. -/
def deleteInvoiceItem (db : DB) (iid : Nat) : Except DBError DB :=
  match db.invoice_items.find? fun r => r.id == iid with
  | none => .ok db
  | some old =>
    let items := db.invoice_items.filter fun r => r.id != iid
    let invoices := recalcInvoiceTotal db.invoices items old.invoice_id
    match updateProductStock db.products old.product_id old.quantity with
    | .error e => .error e
    | .ok ps =>
      .ok { products := ps, purchases := db.purchases,
            invoices := invoices, invoice_items := items }

/-- `public.delete_purchase_safely` : looks the purchase up (NOT FOUND raises),
reads the product's current stock, raises when current_stock - quantity < 0
(a NULL stock, impossible under the foreign key, makes the test false exactly
as in SQL) and otherwise performs the plain DELETE, whose trigger subtracts
the quantity. -/
def delete_purchase_safely (db : DB) (pid : Nat) : Except DBError DB :=
  match db.purchases.find? fun r => r.id == pid with
  | none => .error .notFound
  | some pu =>
    match (db.products.find? fun p => p.id == pu.product_id).map Product.stock_quantity with
    | some s =>
      if s - pu.quantity < 0 then .error .wouldViolateInvariant
      else deletePurchase db pid
    | none => deletePurchase db pid

/-- `public.delete_invoice_by_id` : DELETE FROM invoices WHERE id = inv_id;
NOT FOUND raises.  The ON DELETE CASCADE on invoice_items removes the
invoice's items, and for each removed item the `update_stock_on_sale`
trigger (DELETE branch) returns its quantity to the product's stock.  The
per-item `recalculate_invoice_total` trigger updates the already-deleted
invoice row, matching nothing.  All of it is one transaction. -/
def delete_invoice_by_id (db : DB) (inv_id : Nat) : Except DBError DB :=
  match db.invoices.find? fun i => i.id == inv_id with
  | none => .error .notFound
  | some _ =>
    let cascaded := db.invoice_items.filter fun it => it.invoice_id == inv_id
    match cascaded.foldlM
        (fun ps it => updateProductStock ps it.product_id it.quantity) db.products with
    | .error e => .error e
    | .ok ps =>
      .ok { products := ps, purchases := db.purchases,
            invoices := db.invoices.filter fun i => i.id != inv_id,
            invoice_items := db.invoice_items.filter fun it => it.invoice_id != inv_id }

/-- The client-visible mutations of the core (spec section 6). -/
inductive Mutation where
  | insPurchase (row : Purchase)
  | updPurchase (id : Nat) (product_id : Nat) (date : Int) (refno : String) (qty : Int)
  | delPurchase (id : Nat)
  | insItem (row : InvoiceItem)
  | updItem (id : Nat) (invoice_id : Nat) (product_id : Nat) (qty : Int)
      (price : Rat) (tax : Rat)
  | delItem (id : Nat)
  | delPurchaseSafely (id : Nat)
  | delInvoice (id : Nat)
deriving DecidableEq, Repr

/-- One transactional step of the core. -/
def applyMutation (db : DB) : Mutation → Except DBError DB
  | .insPurchase row => insertPurchase db row
  | .updPurchase pid prod d refno q => updatePurchase db pid prod d refno q
  | .delPurchase pid => deletePurchase db pid
  | .insItem row => insertInvoiceItem db row
  | .updItem iid inv prod q price tax => updateInvoiceItem db iid inv prod q price tax
  | .delItem iid => deleteInvoiceItem db iid
  | .delPurchaseSafely pid => delete_purchase_safely db pid
  | .delInvoice iid => delete_invoice_by_id db iid

/-- Sum of purchase quantities referencing product pid. -/
def purchasesQtySum (purchases : List Purchase) (pid : Nat) : Int :=
  ((purchases.filter fun r => r.product_id == pid).map fun r => r.quantity).sum

/-- Sum of invoice-item quantities referencing product pid. -/
def itemsQtySum (items : List InvoiceItem) (pid : Nat) : Int :=
  ((items.filter fun r => r.product_id == pid).map fun r => r.quantity).sum

/-- Stock ledger invariant (spec section 8): every product's stock equals the
sum of its purchase quantities minus the sum of its invoice-item quantities. -/
def stockConsistent (db : DB) : Prop :=
  ∀ p ∈ db.products,
    p.stock_quantity = purchasesQtySum db.purchases p.id - itemsQtySum db.invoice_items p.id

instance (db : DB) : Decidable (stockConsistent db) := by
  unfold stockConsistent; infer_instance

/-- No product's stock is negative (products_stock_quantity_check). -/
def allStocksNonneg (db : DB) : Prop :=
  ∀ p ∈ db.products, 0 ≤ p.stock_quantity

instance (db : DB) : Decidable (allStocksNonneg db) := by
  unfold allStocksNonneg; infer_instance

/-- Row type returned by `get_combined_report`. -/
structure ReportRow where
  transaction_id : Nat
  transaction_date : Int
  transaction_type : String
  reference_number : String
  product_name : String
  quantity_change : Int
deriving DecidableEq, Repr

/-- Row type returned by `export_combined_report` (no transaction_id column). -/
structure ExportRow where
  transaction_date : Int
  transaction_type : String
  reference_number : String
  product_name : String
  quantity_change : Int
deriving DecidableEq, Repr

/-- One invoice item's contribution to the sales half of the
combined_transactions CTE of `get_combined_report`: the row survives the
(primary-key) joins to invoices and products, the type flag and the BETWEEN
date range, and carries quantity_change = -ii.quantity. -/
def saleReportBody (db : DB) (s : Int) (e : Int) (t : String) (ii : InvoiceItem) :
    Option ReportRow :=
  match db.invoices.find? fun i => i.id == ii.invoice_id with
  | none => none
  | some i =>
    match db.products.find? fun p => p.id == ii.product_id with
    | none => none
    | some p =>
      if (t = "all" ∨ t = "sale") ∧ s ≤ i.invoice_date ∧ i.invoice_date ≤ e then
        some { transaction_id := ii.id, transaction_date := i.invoice_date,
               transaction_type := "Sale", reference_number := i.invoice_number,
               product_name := p.name, quantity_change := -ii.quantity }
      else none

/-- Sales half of the combined_transactions CTE of `get_combined_report`. -/
def saleReportRows (db : DB) (s : Int) (e : Int) (t : String) : List ReportRow :=
  db.invoice_items.filterMap (saleReportBody db s e t)

/-- One purchase's contribution to the purchases half of the CTE of
`get_combined_report`: joined to products, filtered by flag and range, with
quantity_change = +pu.quantity. -/
def purchaseReportBody (db : DB) (s : Int) (e : Int) (t : String) (pu : Purchase) :
    Option ReportRow :=
  match db.products.find? fun p => p.id == pu.product_id with
  | none => none
  | some p =>
    if (t = "all" ∨ t = "purchase") ∧ s ≤ pu.purchase_date ∧ pu.purchase_date ≤ e then
      some { transaction_id := pu.id, transaction_date := pu.purchase_date,
             transaction_type := "Purchase", reference_number := pu.reference_invoice,
             product_name := p.name, quantity_change := pu.quantity }
    else none

/-- Purchases half of the combined_transactions CTE of `get_combined_report`. -/
def purchaseReportRows (db : DB) (s : Int) (e : Int) (t : String) : List ReportRow :=
  db.purchases.filterMap (purchaseReportBody db s e t)

/-- ORDER BY transaction_date DESC, product_name ASC on report rows: a row
comes no later than another when its date is larger, or the dates tie and its
product name is no larger. -/
def ReportOrder (a b : ReportRow) : Prop :=
  b.transaction_date < a.transaction_date ∨
    (a.transaction_date = b.transaction_date ∧ a.product_name ≤ b.product_name)

instance : DecidableRel ReportOrder := fun a b => by
  unfold ReportOrder; infer_instance

instance : IsTrans ReportRow ReportOrder := by
  constructor
  rintro a b c (h₁ | ⟨h₁, h₁n⟩) (h₂ | ⟨h₂, h₂n⟩)
  · exact Or.inl (by omega)
  · exact Or.inl (by omega)
  · exact Or.inl (by omega)
  · exact Or.inr ⟨by omega, le_trans h₁n h₂n⟩

instance : IsTotal ReportRow ReportOrder := by
  constructor
  intro a b
  rcases lt_trichotomy a.transaction_date b.transaction_date with h | h | h
  · exact Or.inr (Or.inl h)
  · rcases le_total a.product_name b.product_name with hn | hn
    · exact Or.inl (Or.inr ⟨h, hn⟩)
    · exact Or.inr (Or.inr ⟨h.symm, hn⟩)
  · exact Or.inl (Or.inl h)

/-- The same ORDER BY on the export row type. -/
def ExportOrder (a b : ExportRow) : Prop :=
  b.transaction_date < a.transaction_date ∨
    (a.transaction_date = b.transaction_date ∧ a.product_name ≤ b.product_name)

instance : DecidableRel ExportOrder := fun a b => by
  unfold ExportOrder; infer_instance

/-- `get_combined_report(p_start_date, p_end_date, p_transaction_type, p_limit,
p_offset)` : the union of the two halves, ordered, then OFFSET and LIMIT. -/
def get_combined_report (db : DB) (s : Int) (e : Int) (t : String)
    (lim : Nat) (off : Nat) : List ReportRow :=
  ((List.insertionSort ReportOrder
      ((saleReportRows db s e t) ++ (purchaseReportRows db s e t))).drop off).take lim

/-- One invoice item's contribution to the sales half of
`export_combined_report` (identical SELECT, minus the id column). -/
def saleExportBody (db : DB) (s : Int) (e : Int) (t : String) (ii : InvoiceItem) :
    Option ExportRow :=
  match db.invoices.find? fun i => i.id == ii.invoice_id with
  | none => none
  | some i =>
    match db.products.find? fun p => p.id == ii.product_id with
    | none => none
    | some p =>
      if (t = "all" ∨ t = "sale") ∧ s ≤ i.invoice_date ∧ i.invoice_date ≤ e then
        some { transaction_date := i.invoice_date, transaction_type := "Sale",
               reference_number := i.invoice_number, product_name := p.name,
               quantity_change := -ii.quantity }
      else none

/-- Sales half of `export_combined_report`. -/
def saleExportRows (db : DB) (s : Int) (e : Int) (t : String) : List ExportRow :=
  db.invoice_items.filterMap (saleExportBody db s e t)

/-- One purchase's contribution to the purchases half of `export_combined_report`. -/
def purchaseExportBody (db : DB) (s : Int) (e : Int) (t : String) (pu : Purchase) :
    Option ExportRow :=
  match db.products.find? fun p => p.id == pu.product_id with
  | none => none
  | some p =>
    if (t = "all" ∨ t = "purchase") ∧ s ≤ pu.purchase_date ∧ pu.purchase_date ≤ e then
      some { transaction_date := pu.purchase_date, transaction_type := "Purchase",
             reference_number := pu.reference_invoice, product_name := p.name,
             quantity_change := pu.quantity }
    else none

/-- Purchases half of `export_combined_report`. -/
def purchaseExportRows (db : DB) (s : Int) (e : Int) (t : String) : List ExportRow :=
  db.purchases.filterMap (purchaseExportBody db s e t)

/-- `export_combined_report(p_start_date, p_end_date, p_transaction_type)` :
the full ordered sequence, no LIMIT / OFFSET. -/
def export_combined_report (db : DB) (s : Int) (e : Int) (t : String) :
    List ExportRow :=
  List.insertionSort ExportOrder ((saleExportRows db s e t) ++ (purchaseExportRows db s e t))

/-- Whether an invoice item is counted by the sales subquery of
`get_combined_report_count` (joins only invoices, no products join). -/
def saleCountPred (db : DB) (s : Int) (e : Int) (t : String) (ii : InvoiceItem) : Bool :=
  decide (t = "all" ∨ t = "sale") &&
    match db.invoices.find? fun i => i.id == ii.invoice_id with
    | some i => decide (s ≤ i.invoice_date) && decide (i.invoice_date ≤ e)
    | none => false

/-- Whether a purchase is counted by the purchases subquery of
`get_combined_report_count` (no join at all). -/
def purchaseCountPred (s : Int) (e : Int) (t : String) (pu : Purchase) : Bool :=
  decide (t = "all" ∨ t = "purchase") &&
    decide (s ≤ pu.purchase_date) && decide (pu.purchase_date ≤ e)

/-- `get_combined_report_count` : count(*) over the same UNION ALL, but the
sales side joins only invoices (no products join) and the purchases side
joins nothing. -/
def get_combined_report_count (db : DB) (s : Int) (e : Int) (t : String) : Nat :=
  db.invoice_items.countP (saleCountPred db s e t) +
    db.purchases.countP (purchaseCountPred s e t)

/-- Projection of a report row to the columns the export shares with it. -/
def projectRow (r : ReportRow) : ExportRow :=
  { transaction_date := r.transaction_date, transaction_type := r.transaction_type,
    reference_number := r.reference_number, product_name := r.product_name,
    quantity_change := r.quantity_change }

/-!
Lemmas about the products UPDATE and its CHECK constraint.
-/

theorem updateProductStock_eq_ok {ps : List Product} {pid : Nat} {delta : Int}
    (hok : ∀ p ∈ ps, p.id = pid → 0 ≤ p.stock_quantity + delta) :
    updateProductStock ps pid delta = .ok (ps.map (stockAdjustRow pid delta)) := by
  have hall : (ps.map (stockAdjustRow pid delta)).all
      (fun p => p.id != pid || decide (0 ≤ p.stock_quantity)) = true := by
    apply List.all_eq_true.2
    intro q hq
    rcases List.mem_map.1 hq with ⟨p, hp, rfl⟩
    by_cases hid : p.id = pid
    · simp [stockAdjustRow, hid, hok p hp hid]
    · simp [stockAdjustRow, hid]
  simp only [updateProductStock, hall, if_true]

theorem updateProductStock_ok_elim {ps ps' : List Product} {pid : Nat} {delta : Int}
    (h : updateProductStock ps pid delta = .ok ps') :
    ps' = ps.map (stockAdjustRow pid delta) := by
  simp only [updateProductStock] at h
  split at h
  · cases h; rfl
  · cases h

theorem updateProductStock_nonneg {ps ps' : List Product} {pid : Nat} {delta : Int}
    (hpre : ∀ p ∈ ps, 0 ≤ p.stock_quantity)
    (h : updateProductStock ps pid delta = .ok ps') :
    ∀ p ∈ ps', 0 ≤ p.stock_quantity := by
  simp only [updateProductStock] at h
  split at h
  case isTrue hall =>
    cases h
    intro q hq
    have happ := List.all_eq_true.1 hall q hq
    rcases List.mem_map.1 hq with ⟨p, hp, rfl⟩
    by_cases hid : p.id = pid
    · have hidq : (stockAdjustRow pid delta p).id = pid := by simp [stockAdjustRow, hid]
      simp [hidq] at happ
      exact happ
    · simpa [stockAdjustRow, hid] using hpre p hp
  case isFalse => cases h

theorem updateProductStock_err {ps : List Product} {pid : Nat} {delta : Int}
    (p : Product) (hp : p ∈ ps) (hid : p.id = pid)
    (hneg : p.stock_quantity + delta < 0) :
    updateProductStock ps pid delta = .error .constraintViolation := by
  have hnall : ¬ ((ps.map (stockAdjustRow pid delta)).all
      (fun q => q.id != pid || decide (0 ≤ q.stock_quantity)) = true) := by
    intro hall
    have happ := List.all_eq_true.1 hall (stockAdjustRow pid delta p)
      (List.mem_map_of_mem _ hp)
    simp [stockAdjustRow, hid] at happ
    omega
  simp only [updateProductStock]
  rw [if_neg hnall]

/-!
Lemmas about the per-row trigger cascade of an invoice deletion.
-/

theorem foldlM_stock_nonneg (l : List InvoiceItem) :
    ∀ (ps ps' : List Product),
      (∀ p ∈ ps, 0 ≤ p.stock_quantity) →
      List.foldlM (fun acc it => updateProductStock acc it.product_id it.quantity) ps l
        = .ok ps' →
      ∀ p ∈ ps', 0 ≤ p.stock_quantity := by
  induction l with
  | nil =>
    intro ps ps' hpre h
    simp only [List.foldlM_nil] at h
    cases h
    exact hpre
  | cons a l ih =>
    intro ps ps' hpre h
    rw [List.foldlM_cons] at h
    cases hstep : updateProductStock ps a.product_id a.quantity with
    | error err => rw [hstep] at h; exact Except.noConfusion h
    | ok ps1 =>
      rw [hstep] at h
      exact ih ps1 ps' (updateProductStock_nonneg hpre hstep) h

theorem foldlM_stock_sum (l : List InvoiceItem) :
    ∀ (ps : List Product),
      (∀ p ∈ ps, 0 ≤ p.stock_quantity) →
      (∀ it ∈ l, 0 < it.quantity) →
      List.foldlM (fun acc it => updateProductStock acc it.product_id it.quantity) ps l =
        .ok (ps.map fun p =>
          { p with stock_quantity := p.stock_quantity + itemsQtySum l p.id }) := by
  induction l with
  | nil =>
    intro ps hpre hq
    have hfun : (fun p : Product =>
        { p with stock_quantity := p.stock_quantity + itemsQtySum [] p.id }) = id := by
      funext p
      cases p
      simp [itemsQtySum]
    rw [hfun, List.map_id, List.foldlM_nil]
    rfl
  | cons a l ih =>
    intro ps hpre hq
    have hstep : updateProductStock ps a.product_id a.quantity =
        .ok (ps.map (stockAdjustRow a.product_id a.quantity)) := by
      apply updateProductStock_eq_ok
      intro p hp _
      have := hpre p hp
      have := hq a (List.mem_cons_self a l)
      omega
    have hpre1 : ∀ p ∈ ps.map (stockAdjustRow a.product_id a.quantity),
        0 ≤ p.stock_quantity :=
      updateProductStock_nonneg hpre hstep
    have hq1 : ∀ it ∈ l, 0 < it.quantity := fun it hit => hq it (List.mem_cons_of_mem a hit)
    rw [List.foldlM_cons, hstep]
    have hrest := ih (ps.map (stockAdjustRow a.product_id a.quantity)) hpre1 hq1
    refine hrest.trans ?_
    congr 1
    rw [List.map_map]
    apply List.map_congr_left
    intro p _
    by_cases hid : p.id = a.product_id
    · simp only [Function.comp, stockAdjustRow, if_pos hid, itemsQtySum, List.filter_cons]
      have hbeq : (a.product_id == p.id) = true := by simp [hid]
      simp only [hbeq, if_true, List.map_cons, List.sum_cons]
      simp only [Product.mk.injEq, and_true, true_and]
      omega
    · simp only [Function.comp, stockAdjustRow, if_neg hid, itemsQtySum, List.filter_cons]
      have hbeq : (a.product_id == p.id) = false := by
        simp only [beq_eq_false_iff_ne, ne_eq]
        exact fun hh => hid hh.symm
      simp [hbeq]

/-!
Lemmas about the full recomputation of an invoice total.
-/

theorem recalcInvoiceTotal_total {invoices : List Invoice} {items : List InvoiceItem}
    {tid : Nat} :
    ∀ inv ∈ recalcInvoiceTotal invoices items tid, inv.id = tid →
      inv.total_amount = invoiceItemsTotal items tid := by
  intro inv hinv hid
  rcases List.mem_map.1 hinv with ⟨i, _, rfl⟩
  by_cases h : i.id = tid
  · simp [if_pos h]
  · simp only [if_neg h] at hid ⊢
    exact absurd hid h

theorem recalcInvoiceTotal_untouched {invoices : List Invoice} {items : List InvoiceItem}
    {tid : Nat} :
    ∀ inv ∈ recalcInvoiceTotal invoices items tid, inv.id ≠ tid → inv ∈ invoices := by
  intro inv hinv hne
  rcases List.mem_map.1 hinv with ⟨i, hi, rfl⟩
  by_cases h : i.id = tid
  · simp only [if_pos h] at hne
    exact absurd h hne
  · simpa [if_neg h] using hi

/-!
Per-operation preservation of the products CHECK constraint.
-/

theorem insertPurchase_stockNonneg {db db' : DB} {row : Purchase}
    (hpre : allStocksNonneg db) (h : insertPurchase db row = .ok db') :
    allStocksNonneg db' := by
  simp only [insertPurchase] at h
  split at h
  · exact Except.noConfusion h
  split at h
  · exact Except.noConfusion h
  split at h
  · exact Except.noConfusion h
  split at h
  · exact Except.noConfusion h
  · rename_i ps heq
    cases h
    intro p hp
    exact updateProductStock_nonneg hpre heq p hp

theorem updatePurchase_stockNonneg {db db' : DB} {pid : Nat} {prod : Nat} {d : Int}
    {refno : String} {q : Int}
    (hpre : allStocksNonneg db) (h : updatePurchase db pid prod d refno q = .ok db') :
    allStocksNonneg db' := by
  simp only [updatePurchase] at h
  split at h
  · cases h; exact hpre
  split at h
  · exact Except.noConfusion h
  split at h
  · exact Except.noConfusion h
  split at h
  · exact Except.noConfusion h
  · rename_i ps heq
    cases h
    intro p hp
    exact updateProductStock_nonneg hpre heq p hp

theorem deletePurchase_stockNonneg {db db' : DB} {pid : Nat}
    (hpre : allStocksNonneg db) (h : deletePurchase db pid = .ok db') :
    allStocksNonneg db' := by
  simp only [deletePurchase] at h
  split at h
  · cases h; exact hpre
  split at h
  · exact Except.noConfusion h
  · rename_i ps heq
    cases h
    intro p hp
    exact updateProductStock_nonneg hpre heq p hp

theorem insertInvoiceItem_stockNonneg {db db' : DB} {row : InvoiceItem}
    (hpre : allStocksNonneg db) (h : insertInvoiceItem db row = .ok db') :
    allStocksNonneg db' := by
  simp only [insertInvoiceItem] at h
  split at h
  · exact Except.noConfusion h
  split at h
  · exact Except.noConfusion h
  split at h
  · exact Except.noConfusion h
  split at h
  · exact Except.noConfusion h
  split at h
  · exact Except.noConfusion h
  · rename_i ps heq
    cases h
    intro p hp
    exact updateProductStock_nonneg hpre heq p hp

theorem updateInvoiceItem_stockNonneg {db db' : DB} {iid : Nat} {ninv nprod : Nat}
    {q : Int} {price tax : Rat}
    (hpre : allStocksNonneg db)
    (h : updateInvoiceItem db iid ninv nprod q price tax = .ok db') :
    allStocksNonneg db' := by
  simp only [updateInvoiceItem] at h
  split at h
  · cases h; exact hpre
  split at h
  · exact Except.noConfusion h
  split at h
  · exact Except.noConfusion h
  split at h
  · exact Except.noConfusion h
  split at h
  · exact Except.noConfusion h
  · rename_i ps heq
    cases h
    intro p hp
    -- heq identifies ps as the successful result of the stock branch
    revert heq
    split
    · -- product changed: two chained UPDATEs
      split
      · intro heq; exact Except.noConfusion heq
      · rename_i ps1 heq1
        intro heq
        exact updateProductStock_nonneg (updateProductStock_nonneg hpre heq1) heq p hp
    · -- same product: one UPDATE
      intro heq
      exact updateProductStock_nonneg hpre heq p hp

theorem deleteInvoiceItem_stockNonneg {db db' : DB} {iid : Nat}
    (hpre : allStocksNonneg db) (h : deleteInvoiceItem db iid = .ok db') :
    allStocksNonneg db' := by
  simp only [deleteInvoiceItem] at h
  split at h
  · cases h; exact hpre
  split at h
  · exact Except.noConfusion h
  · rename_i ps heq
    cases h
    intro p hp
    exact updateProductStock_nonneg hpre heq p hp

theorem delete_purchase_safely_stockNonneg {db db' : DB} {pid : Nat}
    (hpre : allStocksNonneg db) (h : delete_purchase_safely db pid = .ok db') :
    allStocksNonneg db' := by
  simp only [delete_purchase_safely] at h
  split at h
  · exact Except.noConfusion h
  split at h
  · split at h
    · exact Except.noConfusion h
    · exact deletePurchase_stockNonneg hpre h
  · exact deletePurchase_stockNonneg hpre h

theorem delete_invoice_by_id_stockNonneg {db db' : DB} {iid : Nat}
    (hpre : allStocksNonneg db) (h : delete_invoice_by_id db iid = .ok db') :
    allStocksNonneg db' := by
  simp only [delete_invoice_by_id] at h
  split at h
  · exact Except.noConfusion h
  split at h
  · exact Except.noConfusion h
  · rename_i ps heq
    cases h
    intro p hp
    exact foldlM_stock_nonneg _ _ _ hpre heq p hp

/-!
Claim theorems.
-/

/-- Claim C7: for every product and after every operation of the core, the
product's stock_quantity is never negative: a mutation whose triggered stock
adjustment would drive a stock below zero fails (and, the result being an
error, no state is committed) rather than committing a negative value. -/
theorem applyMutation_stock_nonneg {db db' : DB} (m : Mutation)
    (hpre : allStocksNonneg db) (h : applyMutation db m = .ok db') :
    allStocksNonneg db' := by
  cases m with
  | insPurchase row => exact insertPurchase_stockNonneg hpre h
  | updPurchase pid prod d refno q => exact updatePurchase_stockNonneg hpre h
  | delPurchase pid => exact deletePurchase_stockNonneg hpre h
  | insItem row => exact insertInvoiceItem_stockNonneg hpre h
  | updItem iid inv prod q price tax => exact updateInvoiceItem_stockNonneg hpre h
  | delItem iid => exact deleteInvoiceItem_stockNonneg hpre h
  | delPurchaseSafely pid => exact delete_purchase_safely_stockNonneg hpre h
  | delInvoice iid => exact delete_invoice_by_id_stockNonneg hpre h

/-- State used by the witness of Claim C7. -/
def dbC7 : DB :=
  { products := [{ id := 1, name := "A", stock_quantity := 5, unit_price := 1, tax_rate := 0 }],
    purchases := [{ id := 10, product_id := 1, purchase_date := 0,
                    reference_invoice := "r", quantity := 5 }],
    invoices := [], invoice_items := [] }

/-- Result state used by the witness of Claim C7. -/
def dbC7' : DB :=
  { products := [{ id := 1, name := "A", stock_quantity := 0, unit_price := 1, tax_rate := 0 }],
    purchases := [], invoices := [], invoice_items := [] }

/-- Witness for Claim C7 at a concrete state and mutation. -/
theorem applyMutation_stock_nonneg_witness :
    allStocksNonneg dbC7 ∧ allStocksNonneg dbC7' :=
  ⟨by decide, @applyMutation_stock_nonneg dbC7 dbC7' (.delPurchase 10) (by decide) (by decide)⟩

/-- Consistent start state for Claim C1: product 1 has stock 5 backed by
purchase 10 of quantity 5; product 2 has stock 0 and no transactions. -/
def dbC1 : DB :=
  { products := [{ id := 1, name := "A", stock_quantity := 5, unit_price := 1, tax_rate := 0 },
                 { id := 2, name := "B", stock_quantity := 0, unit_price := 1, tax_rate := 0 }],
    purchases := [{ id := 10, product_id := 1, purchase_date := 0,
                    reference_invoice := "r", quantity := 5 }],
    invoices := [], invoice_items := [] }

/-- State the code produces from `dbC1` when purchase 10 is re-pointed from
product 1 to product 2: both stocks are left as they were. -/
def dbC1' : DB :=
  { products := [{ id := 1, name := "A", stock_quantity := 5, unit_price := 1, tax_rate := 0 },
                 { id := 2, name := "B", stock_quantity := 0, unit_price := 1, tax_rate := 0 }],
    purchases := [{ id := 10, product_id := 2, purchase_date := 0,
                    reference_invoice := "r", quantity := 5 }],
    invoices := [], invoice_items := [] }

/-- Claim C1 (code bug): the stock ledger invariant is NOT preserved by every
core mutation.  From the consistent state `dbC1`, updating purchase 10 to
reference product 2 succeeds, because the `update_stock_on_purchase` trigger
adjusts only NEW.product_id by (NEW.quantity - OLD.quantity), yet the result
`dbC1'` violates the invariant: product 1 keeps stock 5 with no purchases
left, product 2 keeps stock 0 despite a purchase of 5. -/
theorem purchase_update_product_change_breaks_ledger :
    stockConsistent dbC1 ∧
      applyMutation dbC1 (.updPurchase 10 2 0 "r" 5) = .ok dbC1' ∧
      ¬ stockConsistent dbC1' :=
  ⟨by decide, by decide, by decide⟩

/-- Start state for Claim C2: product 1 has stock 4 backed by purchase 20 of
quantity 4; product 2 has stock 0. -/
def dbC2 : DB :=
  { products := [{ id := 1, name := "A", stock_quantity := 4, unit_price := 1, tax_rate := 0 },
                 { id := 2, name := "B", stock_quantity := 0, unit_price := 1, tax_rate := 0 }],
    purchases := [{ id := 20, product_id := 1, purchase_date := 0,
                    reference_invoice := "x", quantity := 4 }],
    invoices := [], invoice_items := [] }

/-- State the code produces from `dbC2` when purchase 20 is changed to
product 2 with quantity 7: product 1 keeps stock 4 (the claim requires 0) and
product 2 gets 0 - 4 + 7 = 3 (the claim requires 7). -/
def dbC2' : DB :=
  { products := [{ id := 1, name := "A", stock_quantity := 4, unit_price := 1, tax_rate := 0 },
                 { id := 2, name := "B", stock_quantity := 3, unit_price := 1, tax_rate := 0 }],
    purchases := [{ id := 20, product_id := 2, purchase_date := 0,
                    reference_invoice := "x", quantity := 7 }],
    invoices := [], invoice_items := [] }

/-- Claim C2 (code bug): a purchase update that changes the product reference
does NOT subtract the old quantity from the old product and add the new
quantity to the new product.  The UPDATE branch of `update_stock_on_purchase`
runs a single UPDATE on NEW.product_id with delta NEW.quantity - OLD.quantity:
here product 1 stays at 4 instead of dropping to 0, and product 2 becomes 3
instead of 7. -/
theorem purchase_update_product_change_misadjusts_stock :
    applyMutation dbC2 (.updPurchase 20 2 0 "x" 7) = .ok dbC2' ∧
      dbC2'.products.map Product.stock_quantity = [4, 3] ∧
      ¬ dbC2'.products.map Product.stock_quantity = [0, 7] :=
  ⟨by decide, by decide, by decide⟩

/-- Claim C3: after every insert, update or delete of an InvoiceItem, the
affected invoice's total_amount equals the full sum over its current items of
quantity * unit_price * (1 + tax_rate) (0 when no items remain), recomputed
from scratch — no assumption on the previous total is needed; and when an
update moves an item between invoices, both the source and the destination
invoice satisfy the equality afterwards. -/
theorem invoice_total_recomputed_after_item_mutations (db : DB) :
    (∀ (row : InvoiceItem) (db' : DB), insertInvoiceItem db row = .ok db' →
      ∀ inv ∈ db'.invoices, inv.id = row.invoice_id →
        inv.total_amount = invoiceItemsTotal db'.invoice_items inv.id) ∧
    (∀ (iid : Nat) (old : InvoiceItem) (ninv nprod : Nat) (q : Int) (price tax : Rat)
        (db' : DB),
      (db.invoice_items.find? fun r => r.id == iid) = some old →
      updateInvoiceItem db iid ninv nprod q price tax = .ok db' →
      ∀ inv ∈ db'.invoices, inv.id = ninv ∨ inv.id = old.invoice_id →
        inv.total_amount = invoiceItemsTotal db'.invoice_items inv.id) ∧
    (∀ (iid : Nat) (old : InvoiceItem) (db' : DB),
      (db.invoice_items.find? fun r => r.id == iid) = some old →
      deleteInvoiceItem db iid = .ok db' →
      ∀ inv ∈ db'.invoices, inv.id = old.invoice_id →
        inv.total_amount = invoiceItemsTotal db'.invoice_items inv.id) := by
  refine ⟨?_, ?_, ?_⟩
  · intro row db' h
    simp only [insertInvoiceItem] at h
    split at h
    · exact Except.noConfusion h
    split at h
    · exact Except.noConfusion h
    split at h
    · exact Except.noConfusion h
    split at h
    · exact Except.noConfusion h
    split at h
    · exact Except.noConfusion h
    · rename_i ps heq
      cases h
      intro inv hinv hid
      have htot := recalcInvoiceTotal_total inv hinv hid
      rw [hid]
      exact htot
  · intro iid old ninv nprod q price tax db' hfind h
    simp only [updateInvoiceItem, hfind] at h
    split at h
    · exact Except.noConfusion h
    split at h
    · exact Except.noConfusion h
    split at h
    · exact Except.noConfusion h
    split at h
    · exact Except.noConfusion h
    · rename_i ps heq
      cases h
      intro inv hinv hdisj
      by_cases hmv : ninv ≠ old.invoice_id
      · rw [if_pos hmv] at hinv
        rcases hdisj with hid | hid
        · have hne : inv.id ≠ old.invoice_id := by rw [hid]; exact hmv
          have hinv1 := recalcInvoiceTotal_untouched inv hinv hne
          have htot := recalcInvoiceTotal_total inv hinv1 hid
          rw [hid]
          exact htot
        · have htot := recalcInvoiceTotal_total inv hinv hid
          rw [hid]
          exact htot
      · rw [if_neg hmv] at hinv
        push_neg at hmv
        rcases hdisj with hid | hid
        · have htot := recalcInvoiceTotal_total inv hinv hid
          rw [hid]
          exact htot
        · rw [← hmv] at hid
          have htot := recalcInvoiceTotal_total inv hinv hid
          rw [hid]
          exact htot
  · intro iid old db' hfind h
    simp only [deleteInvoiceItem, hfind] at h
    split at h
    · exact Except.noConfusion h
    · rename_i ps heq
      cases h
      intro inv hinv hid
      have htot := recalcInvoiceTotal_total inv hinv hid
      rw [hid]
      exact htot

/-- Start state for the witness of Claim C3. -/
def dbC3 : DB :=
  { products := [{ id := 1, name := "P", stock_quantity := 2, unit_price := 1, tax_rate := 0 }],
    purchases := [],
    invoices := [{ id := 5, invoice_number := "INV1", invoice_date := 3, total_amount := 0 }],
    invoice_items := [] }

/-- Item inserted by the witness of Claim C3. -/
def rowC3 : InvoiceItem :=
  { id := 100, invoice_id := 5, product_id := 1, quantity := 2, unit_price := 3, tax_rate := 0 }

/-- Invoice 5 as it stands after the witness insertion of Claim C3. -/
def invC3 : Invoice :=
  { id := 5, invoice_number := "INV1", invoice_date := 3,
    total_amount := invoiceItemsTotal [rowC3] 5 }

/-- Result state of the witness insertion of Claim C3. -/
def dbC3' : DB :=
  { products := [{ id := 1, name := "P", stock_quantity := 0, unit_price := 1, tax_rate := 0 }],
    purchases := [],
    invoices := [invC3],
    invoice_items := [rowC3] }

/-- Witness for Claim C3: a concrete insertion, with the invoice's recomputed
total equal to the full sum over its items. -/
theorem invoice_total_recomputed_witness :
    insertInvoiceItem dbC3 rowC3 = .ok dbC3' ∧
      invC3.total_amount = invoiceItemsTotal dbC3'.invoice_items invC3.id :=
  ⟨by rfl,
   (invoice_total_recomputed_after_item_mutations dbC3).1 rowC3 dbC3' (by rfl)
     invC3 (List.mem_singleton.2 rfl) (by rfl)⟩

/-- Claim C4: `delete_purchase_safely` fails with NotFound when no purchase has
the id; fails with WouldViolateInvariant when the referenced product's current
stock minus the purchase's quantity is negative (an error, so nothing is
changed); and otherwise deletes the purchase, the product's stock dropping by
exactly the purchase's quantity (id being the products primary key). -/
theorem delete_purchase_safely_spec (db : DB) (pid : Nat) :
    ((db.purchases.find? fun r => r.id == pid) = none →
      delete_purchase_safely db pid = .error .notFound) ∧
    (∀ (pu : Purchase) (p : Product),
      (db.purchases.find? fun r => r.id == pid) = some pu →
      (db.products.find? fun x => x.id == pu.product_id) = some p →
      (p.stock_quantity - pu.quantity < 0 →
        delete_purchase_safely db pid = .error .wouldViolateInvariant) ∧
      ((db.products.map Product.id).Nodup →
        0 ≤ p.stock_quantity - pu.quantity →
        delete_purchase_safely db pid = .ok
          { db with
            products := db.products.map (stockAdjustRow pu.product_id (-pu.quantity)),
            purchases := db.purchases.filter fun r => r.id != pid })) := by
  constructor
  · intro hnone
    simp only [delete_purchase_safely, hnone]
  · intro pu p hfind hfindp
    have hpid : p.id = pu.product_id := by
      have := List.find?_some hfindp
      exact beq_iff_eq.1 this
    have hpmem : p ∈ db.products := List.mem_of_find?_eq_some hfindp
    constructor
    · intro hneg
      simp only [delete_purchase_safely, hfind, hfindp, Option.map_some']
      rw [if_pos hneg]
    · intro hnd hge
      have hnlt : ¬ (p.stock_quantity - pu.quantity < 0) := by omega
      simp only [delete_purchase_safely, hfind, hfindp, Option.map_some']
      rw [if_neg hnlt]
      simp only [deletePurchase, hfind]
      have hstock : updateProductStock db.products pu.product_id (-pu.quantity) =
          .ok (db.products.map (stockAdjustRow pu.product_id (-pu.quantity))) := by
        apply updateProductStock_eq_ok
        intro q hq hqid
        have hq_eq : q = p := List.inj_on_of_nodup_map hnd hq hpmem (by rw [hqid, hpid])
        rw [hq_eq]
        omega
      rw [hstock]

/-- State for the witness of Claim C4: stock 5, one purchase of quantity 3. -/
def dbC4 : DB :=
  { products := [{ id := 1, name := "P", stock_quantity := 5, unit_price := 1, tax_rate := 0 }],
    purchases := [{ id := 10, product_id := 1, purchase_date := 0,
                    reference_invoice := "r", quantity := 3 }],
    invoices := [], invoice_items := [] }

/-- The purchase row of `dbC4`. -/
def puC4 : Purchase :=
  { id := 10, product_id := 1, purchase_date := 0, reference_invoice := "r", quantity := 3 }

/-- The product row of `dbC4`. -/
def pC4 : Product :=
  { id := 1, name := "P", stock_quantity := 5, unit_price := 1, tax_rate := 0 }

/-- Result of the witness deletion of Claim C4: stock dropped 5 -> 2. -/
def dbC4' : DB :=
  { products := [{ id := 1, name := "P", stock_quantity := 2, unit_price := 1, tax_rate := 0 }],
    purchases := [], invoices := [], invoice_items := [] }

/-- Witness for Claim C4: both a successful guarded deletion and the NotFound
branch, at concrete inputs. -/
theorem delete_purchase_safely_witness :
    0 ≤ pC4.stock_quantity - puC4.quantity ∧
      delete_purchase_safely dbC4 10 = .ok dbC4' ∧
      delete_purchase_safely dbC4' 10 = .error .notFound :=
  ⟨by decide,
   (((delete_purchase_safely_spec dbC4 10).2 puC4 pC4 (by decide) (by decide)).2
       (by decide) (by decide)).trans (by decide),
   (delete_purchase_safely_spec dbC4' 10).1 (by decide)⟩

/-- Claim C5: `delete_invoice_by_id` fails with NotFound when no invoice has
the id (an error, so nothing is changed); otherwise, in one step, it deletes
the invoice and all of its items, and every product's stock grows by the sum
of the quantities of the deleted items that reference it. -/
theorem delete_invoice_by_id_spec (db : DB) (iid : Nat) :
    ((db.invoices.find? fun i => i.id == iid) = none →
      delete_invoice_by_id db iid = .error .notFound) ∧
    (∀ inv : Invoice, (db.invoices.find? fun i => i.id == iid) = some inv →
      allStocksNonneg db →
      (∀ it ∈ db.invoice_items, 0 < it.quantity) →
      delete_invoice_by_id db iid = .ok
        { products := db.products.map fun p =>
            { p with stock_quantity := p.stock_quantity +
                itemsQtySum (db.invoice_items.filter fun it => it.invoice_id == iid) p.id },
          purchases := db.purchases,
          invoices := db.invoices.filter fun i => i.id != iid,
          invoice_items := db.invoice_items.filter fun it => it.invoice_id != iid }) := by
  constructor
  · intro hnone
    simp only [delete_invoice_by_id, hnone]
  · intro inv hfind hpre hq
    simp only [delete_invoice_by_id, hfind]
    have hfold := foldlM_stock_sum
      (db.invoice_items.filter fun it => it.invoice_id == iid) db.products hpre
      (fun it hit => hq it (List.mem_of_mem_filter hit))
    rw [hfold]

/-- State for the witness of Claim C5 (spec scenario D): product at stock 2,
invoice 5 carrying items of quantity 3 and 5 on it. -/
def dbC5 : DB :=
  { products := [{ id := 1, name := "P", stock_quantity := 2, unit_price := 1, tax_rate := 0 }],
    purchases := [],
    invoices := [{ id := 5, invoice_number := "INV1", invoice_date := 3, total_amount := 8 }],
    invoice_items :=
      [{ id := 100, invoice_id := 5, product_id := 1, quantity := 3, unit_price := 1, tax_rate := 0 },
       { id := 101, invoice_id := 5, product_id := 1, quantity := 5, unit_price := 1, tax_rate := 0 }] }

/-- The invoice row of `dbC5`. -/
def invC5 : Invoice :=
  { id := 5, invoice_number := "INV1", invoice_date := 3, total_amount := 8 }

/-- Result of the witness deletion of Claim C5: stock 2 + 3 + 5 = 10, invoice
and items gone. -/
def dbC5' : DB :=
  { products := [{ id := 1, name := "P", stock_quantity := 10, unit_price := 1, tax_rate := 0 }],
    purchases := [], invoices := [], invoice_items := [] }

/-- Witness for Claim C5: scenario D of the spec, plus the NotFound branch on
the resulting state. -/
theorem delete_invoice_by_id_witness :
    allStocksNonneg dbC5 ∧
      delete_invoice_by_id dbC5 5 = .ok dbC5' ∧
      delete_invoice_by_id dbC5' 5 = .error .notFound :=
  ⟨by decide,
   ((delete_invoice_by_id_spec dbC5 5).2 invC5 (by decide) (by decide)
       (by decide)).trans (by decide),
   (delete_invoice_by_id_spec dbC5' 5).1 (by decide)⟩

/-- State for Claim C6: a product with stock 2 and an invoice to sell on. -/
def dbC6 : DB :=
  { products := [{ id := 1, name := "P", stock_quantity := 2, unit_price := 1, tax_rate := 0 }],
    purchases := [],
    invoices := [{ id := 5, invoice_number := "INV1", invoice_date := 3, total_amount := 0 }],
    invoice_items := [] }

/-- Oversell attempt for Claim C6: quantity 5 against stock 2. -/
def rowC6 : InvoiceItem :=
  { id := 100, invoice_id := 5, product_id := 1, quantity := 5, unit_price := 1, tax_rate := 0 }

/-- Claim C6 is false at this input: inserting an InvoiceItem whose quantity
exceeds the product's stock does not succeed — the `update_stock_on_sale`
trigger's UPDATE hits products_stock_quantity_check and the transaction
aborts, so no negative stock is committed. -/
theorem oversell_insert_fails_concrete :
    allStocksNonneg dbC6 ∧
      insertInvoiceItem dbC6 rowC6 = .error .constraintViolation :=
  ⟨by decide, by decide⟩

/-- Claim C6 (amended): in any state, inserting an otherwise-valid InvoiceItem
whose quantity exceeds the referenced product's current stock fails with a
constraint violation (products_stock_quantity_check), rather than succeeding
with a negative stock. -/
theorem insert_item_oversell_rejected (db : DB) (row : InvoiceItem) (p : Product)
    (hfind : (db.products.find? fun q => q.id == row.product_id) = some p)
    (hover : p.stock_quantity < row.quantity)
    (hrow : itemRowOk row = true)
    (hid : (db.invoice_items.all fun r => r.id != row.id) = true)
    (hinv : invoiceExists db row.invoice_id = true) :
    insertInvoiceItem db row = .error .constraintViolation := by
  have hpe : productExists db row.product_id = true := by
    simp [productExists, hfind]
  have hpid : p.id = row.product_id := by
    have hb := List.find?_some hfind
    exact beq_iff_eq.1 hb
  have hpmem : p ∈ db.products := List.mem_of_find?_eq_some hfind
  have hstock : updateProductStock db.products row.product_id (-row.quantity) =
      .error .constraintViolation :=
    updateProductStock_err p hpmem hpid (by omega)
  simp only [insertInvoiceItem, hrow, hid, hinv, hpe, hstock, Bool.not_true,
    Bool.false_eq_true, if_false]

/-- Witness for the amended Claim C6 at the concrete oversell input. -/
theorem insert_item_oversell_rejected_witness :
    (dbC6.products.find? fun q => q.id == rowC6.product_id) =
        some { id := 1, name := "P", stock_quantity := 2, unit_price := 1, tax_rate := 0 } ∧
      insertInvoiceItem dbC6 rowC6 = .error .constraintViolation :=
  ⟨by decide,
   insert_item_oversell_rejected dbC6 rowC6
     { id := 1, name := "P", stock_quantity := 2, unit_price := 1, tax_rate := 0 }
     (by decide) (by decide) (by decide) (by decide) (by decide)⟩

/-!
Lemmas and claims for the reporting queries.
-/

theorem mem_saleReportRows {db : DB} {s e : Int} {t : String} {r : ReportRow}
    (h : r ∈ saleReportRows db s e t) :
    (t = "all" ∨ t = "sale") ∧ s ≤ r.transaction_date ∧ r.transaction_date ≤ e ∧
      r.transaction_type = "Sale" ∧
      ∃ ii ∈ db.invoice_items, r.transaction_id = ii.id ∧
        r.quantity_change = -ii.quantity := by
  rcases List.mem_filterMap.1 h with ⟨ii, hii, heq⟩
  simp only [saleReportBody] at heq
  split at heq
  · exact Option.noConfusion heq
  split at heq
  · exact Option.noConfusion heq
  split at heq
  case isTrue i hfi p hfp hcond =>
    cases heq
    exact ⟨hcond.1, hcond.2.1, hcond.2.2, rfl, ii, hii, rfl, rfl⟩
  case isFalse => exact Option.noConfusion heq

theorem mem_purchaseReportRows {db : DB} {s e : Int} {t : String} {r : ReportRow}
    (h : r ∈ purchaseReportRows db s e t) :
    (t = "all" ∨ t = "purchase") ∧ s ≤ r.transaction_date ∧ r.transaction_date ≤ e ∧
      r.transaction_type = "Purchase" ∧
      ∃ pu ∈ db.purchases, r.transaction_id = pu.id ∧
        r.quantity_change = pu.quantity := by
  rcases List.mem_filterMap.1 h with ⟨pu, hpu, heq⟩
  simp only [purchaseReportBody] at heq
  split at heq
  · exact Option.noConfusion heq
  split at heq
  case isTrue p hfp hcond =>
    cases heq
    exact ⟨hcond.1, hcond.2.1, hcond.2.2, rfl, pu, hpu, rfl, rfl⟩
  case isFalse => exact Option.noConfusion heq

/-- Claim C8: every row `get_combined_report` returns has its date inside
[start, end]; a Sale row only appears under filter `all` or `sale` and carries
quantity_change = -(item quantity); a Purchase row only appears under `all` or
`purchase` and carries quantity_change = +(purchase quantity); no other row
kinds occur; and the page is sorted by date descending, product name
ascending. -/
theorem get_combined_report_spec (db : DB) (s e : Int) (t : String)
    (lim off : Nat) :
    (∀ r ∈ get_combined_report db s e t lim off,
      (s ≤ r.transaction_date ∧ r.transaction_date ≤ e) ∧
      (r.transaction_type = "Sale" ∨ r.transaction_type = "Purchase") ∧
      (r.transaction_type = "Sale" →
        (t = "all" ∨ t = "sale") ∧
        ∃ ii ∈ db.invoice_items, r.transaction_id = ii.id ∧
          r.quantity_change = -ii.quantity) ∧
      (r.transaction_type = "Purchase" →
        (t = "all" ∨ t = "purchase") ∧
        ∃ pu ∈ db.purchases, r.transaction_id = pu.id ∧
          r.quantity_change = pu.quantity)) ∧
    List.Pairwise ReportOrder (get_combined_report db s e t lim off) := by
  constructor
  · intro r hr
    have hbase : r ∈ (saleReportRows db s e t) ++ (purchaseReportRows db s e t) := by
      have h1 : r ∈ List.insertionSort ReportOrder
          ((saleReportRows db s e t) ++ (purchaseReportRows db s e t)) :=
        List.mem_of_mem_drop (List.mem_of_mem_take hr)
      exact (List.mem_insertionSort ReportOrder).1 h1
    rcases List.mem_append.1 hbase with hs | hp
    · obtain ⟨hflag, hd1, hd2, hty, hwit⟩ := mem_saleReportRows hs
      refine ⟨⟨hd1, hd2⟩, Or.inl hty, fun _ => ⟨hflag, hwit⟩, fun hty2 => ?_⟩
      rw [hty] at hty2
      exact absurd hty2 (by decide)
    · obtain ⟨hflag, hd1, hd2, hty, hwit⟩ := mem_purchaseReportRows hp
      refine ⟨⟨hd1, hd2⟩, Or.inr hty, fun hty2 => ?_, fun _ => ⟨hflag, hwit⟩⟩
      rw [hty] at hty2
      exact absurd hty2 (by decide)
  · have hsorted : List.Pairwise ReportOrder (List.insertionSort ReportOrder
        ((saleReportRows db s e t) ++ (purchaseReportRows db s e t))) :=
      List.sorted_insertionSort ReportOrder _
    exact hsorted.sublist ((List.take_sublist _ _).trans (List.drop_sublist _ _))

/-- State for the witness of Claim C8: one purchase and one sale in range. -/
def dbC8 : DB :=
  { products := [{ id := 1, name := "A", stock_quantity := 5, unit_price := 1, tax_rate := 0 }],
    purchases := [{ id := 10, product_id := 1, purchase_date := 4,
                    reference_invoice := "pr", quantity := 7 }],
    invoices := [{ id := 5, invoice_number := "INV1", invoice_date := 3, total_amount := 0 }],
    invoice_items := [{ id := 100, invoice_id := 5, product_id := 1, quantity := 4,
                        unit_price := 1, tax_rate := 0 }] }

/-- The single row `get_combined_report` returns on `dbC8` under filter sale. -/
def saleRowC8 : ReportRow :=
  { transaction_id := 100, transaction_date := 3, transaction_type := "Sale",
    reference_number := "INV1", product_name := "A", quantity_change := -4 }

/-- Witness for Claim C8: spec scenario E — the range holds a purchase and a
sale, the `sale` filter returns only the sale row, with negative
quantity_change. -/
theorem get_combined_report_spec_witness :
    get_combined_report dbC8 0 10 "sale" 5 0 = [saleRowC8] ∧
      saleRowC8 ∈ get_combined_report dbC8 0 10 "sale" 5 0 ∧
      (0 ≤ saleRowC8.transaction_date ∧ saleRowC8.transaction_date ≤ 10) ∧
      (∃ ii ∈ dbC8.invoice_items, saleRowC8.transaction_id = ii.id ∧
        saleRowC8.quantity_change = -ii.quantity) :=
  ⟨by decide,
   by decide,
   ((get_combined_report_spec dbC8 0 10 "sale" 5 0).1 saleRowC8 (by decide)).1,
   (((get_combined_report_spec dbC8 0 10 "sale" 5 0).1 saleRowC8 (by decide)).2.2.1
     rfl).2⟩

theorem saleExport_count (db : DB) (s e : Int) (t : String) :
    ∀ l : List InvoiceItem,
      (∀ ii ∈ l, ((db.products.find? fun p => p.id == ii.product_id)).isSome = true) →
      (l.filterMap (saleExportBody db s e t)).length = l.countP (saleCountPred db s e t) := by
  intro l
  induction l with
  | nil => intro _; rfl
  | cons a l ih =>
    intro hfk
    have hfk' : ∀ ii ∈ l, ((db.products.find? fun p => p.id == ii.product_id)).isSome = true :=
      fun ii hii => hfk ii (List.mem_cons_of_mem a hii)
    rw [List.filterMap_cons, List.countP_cons]
    cases hfi : db.invoices.find? fun i => i.id == a.invoice_id with
    | none =>
      have hbody : saleExportBody db s e t a = none := by
        simp [saleExportBody, hfi]
      have hpred : saleCountPred db s e t a = false := by
        simp [saleCountPred, hfi]
      rw [hbody, hpred]
      simp [ih hfk']
    | some i =>
      rcases Option.isSome_iff_exists.1 (hfk a (List.mem_cons_self a l)) with ⟨p, hfp⟩
      by_cases hcond : (t = "all" ∨ t = "sale") ∧ s ≤ i.invoice_date ∧ i.invoice_date ≤ e
      · have hbody : saleExportBody db s e t a = some
            { transaction_date := i.invoice_date, transaction_type := "Sale",
              reference_number := i.invoice_number, product_name := p.name,
              quantity_change := -a.quantity } := by
          simp [saleExportBody, hfi, hfp, hcond]
        have hpred : saleCountPred db s e t a = true := by
          simp [saleCountPred, hfi, hcond.1, hcond.2.1, hcond.2.2]
        rw [hbody, hpred]
        simp [ih hfk']
      · have hbody : saleExportBody db s e t a = none := by
          simp only [saleExportBody, hfi, hfp]
          rw [if_neg hcond]
        have hpred : saleCountPred db s e t a = false := by
          rw [Bool.eq_false_iff]
          intro htrue
          simp only [saleCountPred, hfi, Bool.and_eq_true, decide_eq_true_eq] at htrue
          exact hcond ⟨htrue.1, htrue.2.1, htrue.2.2⟩
        rw [hbody, hpred]
        simp [ih hfk']

theorem purchaseExport_count (db : DB) (s e : Int) (t : String) :
    ∀ l : List Purchase,
      (∀ pu ∈ l, ((db.products.find? fun p => p.id == pu.product_id)).isSome = true) →
      (l.filterMap (purchaseExportBody db s e t)).length
        = l.countP (purchaseCountPred s e t) := by
  intro l
  induction l with
  | nil => intro _; rfl
  | cons a l ih =>
    intro hfk
    have hfk' : ∀ pu ∈ l, ((db.products.find? fun p => p.id == pu.product_id)).isSome = true :=
      fun pu hpu => hfk pu (List.mem_cons_of_mem a hpu)
    rw [List.filterMap_cons, List.countP_cons]
    rcases Option.isSome_iff_exists.1 (hfk a (List.mem_cons_self a l)) with ⟨p, hfp⟩
    by_cases hcond : (t = "all" ∨ t = "purchase") ∧ s ≤ a.purchase_date ∧ a.purchase_date ≤ e
    · have hbody : purchaseExportBody db s e t a = some
          { transaction_date := a.purchase_date, transaction_type := "Purchase",
            reference_number := a.reference_invoice, product_name := p.name,
            quantity_change := a.quantity } := by
        simp [purchaseExportBody, hfp, hcond]
      have hpred : purchaseCountPred s e t a = true := by
        simp [purchaseCountPred, hcond.1, hcond.2.1, hcond.2.2]
      rw [hbody, hpred]
      simp [ih hfk']
    · have hbody : purchaseExportBody db s e t a = none := by
        simp only [purchaseExportBody, hfp]
        rw [if_neg hcond]
      have hpred : purchaseCountPred s e t a = false := by
        rw [Bool.eq_false_iff]
        intro htrue
        simp only [purchaseCountPred, Bool.and_eq_true, decide_eq_true_eq] at htrue
        exact hcond ⟨htrue.1.1, htrue.1.2, htrue.2⟩
      rw [hbody, hpred]
      simp [ih hfk']

/-- Claim C9: under referential integrity of the product foreign keys (which
the schema enforces), `get_combined_report_count` equals the number of rows
`export_combined_report` returns for the same date range and type filter. -/
theorem count_matches_export_length (db : DB) (s e : Int) (t : String)
    (hitems : ∀ ii ∈ db.invoice_items,
      ((db.products.find? fun p => p.id == ii.product_id)).isSome = true)
    (hpurch : ∀ pu ∈ db.purchases,
      ((db.products.find? fun p => p.id == pu.product_id)).isSome = true) :
    get_combined_report_count db s e t = (export_combined_report db s e t).length := by
  unfold export_combined_report get_combined_report_count
  rw [List.length_insertionSort, List.length_append]
  unfold saleExportRows purchaseExportRows
  rw [saleExport_count db s e t db.invoice_items hitems,
    purchaseExport_count db s e t db.purchases hpurch]

/-- Witness for Claim C9 at the concrete state `dbC8`. -/
theorem count_matches_export_length_witness :
    get_combined_report_count dbC8 0 10 "all" =
      (export_combined_report dbC8 0 10 "all").length :=
  count_matches_export_length dbC8 0 10 "all" (by decide) (by decide)

theorem proj_saleReportBody (db : DB) (s e : Int) (t : String) (ii : InvoiceItem) :
    (saleReportBody db s e t ii).map projectRow = saleExportBody db s e t ii := by
  simp only [saleReportBody, saleExportBody]
  split
  · rfl
  · split
    · rfl
    · split
      · rfl
      · rfl

theorem proj_purchaseReportBody (db : DB) (s e : Int) (t : String) (pu : Purchase) :
    (purchaseReportBody db s e t pu).map projectRow = purchaseExportBody db s e t pu := by
  simp only [purchaseReportBody, purchaseExportBody]
  split
  · rfl
  · split
    · rfl
    · rfl

/-- Claim C10: the page `get_combined_report` returns is exactly the window of
the full sorted export sequence: dropping `offset` rows and taking at most
`limit` from `export_combined_report`, after projecting report rows to the
shared columns. -/
theorem get_combined_report_refines_export (db : DB) (s e : Int) (t : String)
    (lim off : Nat) :
    (get_combined_report db s e t lim off).map projectRow =
      ((export_combined_report db s e t).drop off).take lim := by
  unfold get_combined_report export_combined_report
  rw [List.map_take, List.map_drop]
  have hmap : (List.insertionSort ReportOrder
        ((saleReportRows db s e t) ++ (purchaseReportRows db s e t))).map projectRow =
      List.insertionSort ExportOrder
        (((saleReportRows db s e t) ++ (purchaseReportRows db s e t)).map projectRow) :=
    List.map_insertionSort ReportOrder ExportOrder projectRow _ (fun a _ b _ => Iff.rfl)
  rw [hmap]
  have hbase : ((saleReportRows db s e t) ++ (purchaseReportRows db s e t)).map projectRow
      = (saleExportRows db s e t) ++ (purchaseExportRows db s e t) := by
    rw [List.map_append]
    have hsale : (saleReportRows db s e t).map projectRow = saleExportRows db s e t := by
      unfold saleReportRows saleExportRows
      rw [List.map_filterMap]
      have hfun : (fun x => (saleReportBody db s e t x).map projectRow)
          = saleExportBody db s e t :=
        funext (proj_saleReportBody db s e t)
      rw [hfun]
    have hpurch : (purchaseReportRows db s e t).map projectRow
        = purchaseExportRows db s e t := by
      unfold purchaseReportRows purchaseExportRows
      rw [List.map_filterMap]
      have hfun : (fun x => (purchaseReportBody db s e t x).map projectRow)
          = purchaseExportBody db s e t :=
        funext (proj_purchaseReportBody db s e t)
      rw [hfun]
    rw [hsale, hpurch]
  rw [hbase]
